import Mathlib

/-!
Shallow embedding of the hearing/protocol/decision lifecycle engine of the
Arby case-management backend.

The embedding follows the TypeScript source:
* `src/services/hearingStateGuard.ts` — guard layer (`canWriteProtocol`,
  `canEditProtocol`, `canTransitionState`, participants-header injection);
* `src/models/DiscussionSession.ts` — session schema and its pre-save hook;
* the discussion-session routes — create / patch / attendees / start / end / sign;
* the protocol routes — create protocol and save-new-version;
* `src/models/Decision.ts` (pre-save hook) and `src/routes/decisions.ts` —
  create / update / revoke / soft-delete decisions;
* `src/middleware/openDocumentsLimit.ts` — the open-draft limiter;
* the request route that creates a decision from a request.

Dates and timestamps are abstracted to `Nat` day indices (`isHearingDate`
compares calendar days only, so a day index is a faithful abstraction);
Mongo ObjectIds are `Nat`; the persisted store is a record of association
lists kept in insertion order.  Authentication and role checks live upstream
of the modelled core and callers are assumed authorized, matching the
routes' middleware split.  Audit logging is fire-and-forget and never
affects the primary operation, so it is not represented.
-/

namespace Arby

/-- `DiscussionSession.status` enum of the schema. -/
inductive SessionStatus
  | created | active | ended | signed | completed | cancelled
deriving DecidableEq, Repr

/-- `AttendeeType` enum from `types/index.ts`. -/
inductive AttendeeType
  | witness | expert | court_clerk | secretary | other
deriving DecidableEq, Repr

/-- An attendee subdocument of a discussion session. -/
structure Attendee where
  type : AttendeeType
  name : String
  userId : Option Nat := none
deriving DecidableEq, Repr

/-- A `DiscussionSession` document (fields relevant to the lifecycle engine). -/
structure Session where
  hearingId : Nat
  caseId : Nat
  title : String
  startedAt : Nat
  endedAt : Option Nat := none
  attendees : List Attendee := []
  protocol : Option String := none
  protocolSnapshot : Option String := none
  status : SessionStatus := .created
  signedAt : Option Nat := none
  signedBy : Option Nat := none
deriving DecidableEq, Repr

/-- A `Hearing` document; `scheduledDate = none` models a falsy scheduled date. -/
structure Hearing where
  caseId : Nat
  scheduledDate : Option Nat := none
  participants : List Nat := []
deriving DecidableEq, Repr

/-- `ProtocolWriteError` enum of the guard service. -/
inductive ProtocolWriteError
  | HEARING_NOT_ACTIVE | NO_PARTICIPANTS | PROTOCOL_LOCKED
  | INVALID_STATE_TRANSITION | DECISION_IN_PROTOCOL | NOT_HEARING_DATE
deriving DecidableEq, Repr

/-- `GuardResult` of the guard service (the human-readable message is omitted). -/
structure GuardResult where
  allowed : Bool
  error : Option ProtocolWriteError := none
deriving DecidableEq, Repr

/-- `isHearingDate`: today's calendar day must equal the hearing's scheduled day
(falling back to the session's start day when the scheduled date is falsy);
`false` when either the session or the hearing is missing. -/
def isHearingDate (today : Nat) (session : Option Session) (hearing : Option Hearing) : Bool :=
  match session, hearing with
  | some s, some h => (h.scheduledDate.getD s.startedAt) == today
  | _, _ => false

/-- `canWriteProtocol`: session must exist; when a hearing record was found the
write is only allowed on the hearing day; the session must be `active`; at
least one attendee must be registered.  First failure wins. -/
def canWriteProtocol (today : Nat) (session : Option Session) (hearing : Option Hearing) :
    GuardResult :=
  match session with
  | none => { allowed := false, error := some .HEARING_NOT_ACTIVE }
  | some s =>
    if hearing.isSome && !(isHearingDate today (some s) hearing) then
      { allowed := false, error := some .PROTOCOL_LOCKED }
    else if s.status != .active then
      { allowed := false, error := some .PROTOCOL_LOCKED }
    else if s.attendees.isEmpty then
      { allowed := false, error := some .NO_PARTICIPANTS }
    else { allowed := true }

/-- `canEditProtocol`: short-circuits to `PROTOCOL_LOCKED` once the session is
`ended` or `signed`, otherwise delegates to `canWriteProtocol`. -/
def canEditProtocol (today : Nat) (session : Option Session) (hearing : Option Hearing) :
    GuardResult :=
  match session with
  | none => { allowed := false, error := some .HEARING_NOT_ACTIVE }
  | some s =>
    if s.status == .ended || s.status == .signed then
      { allowed := false, error := some .PROTOCOL_LOCKED }
    else canWriteProtocol today (some s) hearing

/-- `ALLOWED_STATE_TRANSITIONS` record; statuses absent from the record
(`completed`, `cancelled`) fall back to the empty list. -/
def allowedNextStates : SessionStatus → List SessionStatus
  | .created => [.active]
  | .active => [.ended]
  | .ended => [.signed]
  | .signed => []
  | .completed => []
  | .cancelled => []

/-- `canTransitionState` of the guard service. -/
def canTransitionState (currentStatus newStatus : SessionStatus) : GuardResult :=
  if (allowedNextStates currentStatus).contains newStatus then { allowed := true }
  else { allowed := false, error := some .INVALID_STATE_TRANSITION }

/-- `validateProtocolContent`: the decision-keyword scan warns but never blocks. -/
def validateProtocolContent (_protocolContent : String) : GuardResult :=
  { allowed := true }

/-- Hebrew labels used by `generateParticipantsHeader`. -/
def attendeeTypeLabel : AttendeeType → String
  | .witness => "עד"
  | .expert => "מומחה"
  | .court_clerk => "יכל"
  | .secretary => "מנני"
  | .other => "אחר"

/-- `generateParticipantsHeader`: the locked "present attendees" banner. -/
def generateParticipantsHeader (attendees : List Attendee) : String :=
  if attendees.isEmpty then
    "<div class=\"protocol-participants-header\" contenteditable=\"false\" style=\"user-select: none; -webkit-user-select: none;\"><strong>** נוכחים:</strong> אין נוכחים רשומים</div>"
  else
    "<div class=\"protocol-participants-header\" contenteditable=\"false\" style=\"user-select: none; -webkit-user-select: none; margin-bottom: 1em; padding: 0.5em; background-color: #f0f0f0; border-left: 3px solid #0066cc;\"><strong>** נוכחים:</strong> "
      ++ String.intercalate ", "
          (attendees.map (fun a => a.name ++ " (" ++ attendeeTypeLabel a.type ++ ")"))
      ++ "</div>"

/-- Whether `pat` is a prefix of `l` (character lists). -/
def hasPrefixChars : List Char → List Char → Bool
  | [], _ => true
  | _ :: _, [] => false
  | p :: ps, c :: cs => p == c && hasPrefixChars ps cs

/-- Whether `pat` occurs as a contiguous substring of `l`. -/
def hasSubstrChars (pat : List Char) : List Char → Bool
  | [] => hasPrefixChars pat []
  | c :: cs => hasPrefixChars pat (c :: cs) || hasSubstrChars pat cs

/-- Substring test (`String.includes` in the source). -/
def containsSubstr (s pat : String) : Bool :=
  hasSubstrChars pat.toList s.toList

/-- `injectParticipantsHeader`: idempotent banner injection. -/
def injectParticipantsHeader (protocolContent : String) (attendees : List Attendee) : String :=
  if containsSubstr protocolContent "protocol-participants-header" then protocolContent
  else generateParticipantsHeader attendees ++ "\n\n" ++ protocolContent

/-- `DecisionStatus` enum: draft → sent_for_signature → signed. -/
inductive DecisionStatus
  | draft | sent_for_signature | signed
deriving DecidableEq, Repr

/-- `DecisionType` enum. -/
inductive DecisionType
  | note_decision | final_decision | discussion_decision
deriving DecidableEq, Repr

/-- A `Decision` document (lifecycle-relevant fields). -/
structure Decision where
  caseId : Nat
  type : DecisionType
  title : String
  summary : Option String := none
  content : Option String := none
  documentId : Option Nat := none
  requestId : Option Nat := none
  discussionSessionId : Option Nat := none
  closesDiscussion : Bool := false
  closesCase : Bool := false
  publishedAt : Option Nat := none
  status : DecisionStatus := .draft
  isDeleted : Bool := false
  deletedAt : Option Nat := none
  deletedBy : Option Nat := none
  revokingDecisionId : Option Nat := none
  revokedByDecisionId : Option Nat := none
  createdBy : Nat
deriving DecidableEq, Repr

/-- A `Protocol` version record; list position in the store is creation order. -/
structure ProtocolRec where
  discussionSessionId : Nat
  caseId : Nat
  content : String
  version : Int
  isSigned : Bool := false
  isCurrentVersion : Bool := true
  createdBy : Nat
deriving DecidableEq, Repr

/-- A `Request` document (only the parent case matters here). -/
structure Request where
  caseId : Nat
deriving DecidableEq, Repr

/-- The persisted document store shared by all request handlers.  Case records
are reduced to their status string (the routes only read existence and write
the literal status `"closed"`). -/
structure Store where
  hearings : List (Nat × Hearing) := []
  sessions : List (Nat × Session) := []
  protocols : List ProtocolRec := []
  decisions : List (Nat × Decision) := []
  requests : List (Nat × Request) := []
  cases : List (Nat × String) := []
deriving DecidableEq, Repr

/-- `findById`: first record with the given id. -/
def lookup : List (Nat × α) → Nat → Option α
  | [], _ => none
  | (i, x) :: tl, id =>
    match i == id with
    | true => some x
    | false => lookup tl id

/-- `findByIdAndUpdate` / `$set`-style update of every record with the id. -/
def setById : List (Nat × α) → Nat → (α → α) → List (Nat × α)
  | [], _, _ => []
  | (i, x) :: tl, id, f =>
    (match i == id with
     | true => (i, f x)
     | false => (i, x)) :: setById tl id f

/-- JavaScript truthiness of an optional string field. -/
def optTruthy : Option String → Bool
  | none => false
  | some s => s != ""

/-- Failure modes surfaced by the routes (HTTP-level messages omitted;
`guardDenied` carries the guard's `error` field verbatim). -/
inductive ApiError
  | notFound
  | validationFailed
  | guardDenied (error : Option ProtocolWriteError)
  | invalidTransition
  | decisionSigned
  | signedDecisionCannotBeDeleted
  | onlySignedCanBeRevoked
  | requestIdRequired
  | openDocumentsLimitExceeded (currentOpenCount maxAllowed : Nat)
  | attendeesLocked
  | attendeeExists
  | invalidAttendeeIndex
  | protocolImmutable
  | internalError
deriving DecidableEq, Repr

/-- Errors raised by the `DiscussionSession` schema's pre-save hook. -/
inductive HookError
  | protocolNotActive
  | protocolNoAttendees
deriving DecidableEq, Repr

/-- The `DiscussionSessionSchema.pre('save')` hook: rejects a modified
non-empty protocol unless the session is `active` with attendees, snapshots
the protocol when the status moves to `ended`, and on a move to `signed`
without a timestamp sets `signedAt` and backfills the snapshot.  `old` is the
stored document used to decide `isModified`. -/
def sessionSaveHook (now : Nat) (old s : Session) : Except HookError Session :=
  if (s.protocol != old.protocol) && optTruthy s.protocol && s.status != .active then
    .error .protocolNotActive
  else if (s.protocol != old.protocol) && optTruthy s.protocol && s.attendees.isEmpty then
    .error .protocolNoAttendees
  else
    let s1 := if (s.status != old.status) && s.status == .ended && optTruthy s.protocol then
                { s with protocolSnapshot := s.protocol }
              else s
    let s2 := if (s1.status != old.status) && s1.status == .signed && s1.signedAt == none then
                { s1 with
                  signedAt := some now,
                  protocolSnapshot :=
                    if !(optTruthy s1.protocolSnapshot) && optTruthy s1.protocol then s1.protocol
                    else s1.protocolSnapshot }
              else s1
    .ok s2

/-- `session.save()`: run the pre-save hook against the stored document `old`
and persist the hook's output. -/
def saveSession (now : Nat) (st : Store) (id : Nat) (old s : Session) :
    Except HookError Store :=
  match sessionSaveHook now old s with
  | .error e => .error e
  | .ok s2 => .ok { st with sessions := setById st.sessions id (fun _ => s2) }

/-- Input of the create-session route (`POST /` of the session router). -/
structure CreateSessionInput where
  hearingId : Nat
  caseId : Nat
  title : String
  startedAt : Nat
  attendees : Option (List Attendee) := none
  status : Option SessionStatus := none

/-- The route's validator: `status` is optional and must be one of
`active`, `completed`, `cancelled` when supplied. -/
def createSessionStatusValid : Option SessionStatus → Bool
  | none => true
  | some s => s == .active || s == .completed || s == .cancelled

/-- The session record assembled by the create-session route: attendees come
from the body or (when absent) from the hearing's participants, and the
status defaults to `active`. -/
def mkCreatedSession (h : Hearing) (inp : CreateSessionInput) : Session :=
  let formatted : List Attendee :=
    match inp.attendees with
    | some l => l
    | none =>
      if inp.attendees == none && !h.participants.isEmpty then
        h.participants.map (fun p => { type := .other, name := "משתמש", userId := some p })
      else []
  { hearingId := inp.hearingId, caseId := inp.caseId, title := inp.title,
    startedAt := inp.startedAt, attendees := formatted,
    status := inp.status.getD .active }

/-- `POST /` (create discussion session): validate, require the hearing and
case to exist, then insert the new session (the schema hook is a no-op at
creation: no protocol is set and the status can never be `ended`/`signed`). -/
def createSession (st : Store) (newId : Nat) (inp : CreateSessionInput) :
    Except ApiError Store :=
  if !(createSessionStatusValid inp.status) || inp.title == "" then .error .validationFailed
  else
    match lookup st.hearings inp.hearingId with
    | none => .error .notFound
    | some h =>
      match lookup st.cases inp.caseId with
      | none => .error .notFound
      | some _ =>
        .ok { st with sessions := st.sessions ++ [(newId, mkCreatedSession h inp)] }

/-- `POST /:id/start`: validate the created→active transition and save. -/
def startSession (now : Nat) (st : Store) (id : Nat) : Except ApiError Store :=
  match lookup st.sessions id with
  | none => .error .notFound
  | some s =>
    match lookup st.cases s.caseId with
    | none => .error .notFound
    | some _ =>
      if !(canTransitionState s.status .active).allowed then .error .invalidTransition
      else
        match saveSession now st id s { s with status := .active } with
        | .error _ => .error .internalError
        | .ok st2 => .ok st2

/-- `POST /:id/end`: validate active→ended, stamp `endedAt`, freeze the
snapshot from a non-empty protocol, and save through the hook. -/
def endSession (now : Nat) (st : Store) (id : Nat) : Except ApiError Store :=
  match lookup st.sessions id with
  | none => .error .notFound
  | some s =>
    match lookup st.cases s.caseId with
    | none => .error .notFound
    | some _ =>
      if !(canTransitionState s.status .ended).allowed then .error .invalidTransition
      else
        let s2 := { s with
          status := .ended, endedAt := some now,
          protocolSnapshot :=
            if optTruthy s.protocol then s.protocol else s.protocolSnapshot }
        match saveSession now st id s s2 with
        | .error _ => .error .internalError
        | .ok st2 => .ok st2

/-- `POST /:id/sign`: validate ended→signed, stamp `signedAt`/`signedBy`,
backfill the snapshot from a non-empty protocol when still empty, save. -/
def signSession (now : Nat) (st : Store) (id actor : Nat) : Except ApiError Store :=
  match lookup st.sessions id with
  | none => .error .notFound
  | some s =>
    match lookup st.cases s.caseId with
    | none => .error .notFound
    | some _ =>
      if !(canTransitionState s.status .signed).allowed then .error .invalidTransition
      else
        let s2 := { s with
          status := .signed, signedAt := some now, signedBy := some actor,
          protocolSnapshot :=
            if optTruthy s.protocol && !(optTruthy s.protocolSnapshot) then s.protocol
            else s.protocolSnapshot }
        match saveSession now st id s s2 with
        | .error _ => .error .internalError
        | .ok st2 => .ok st2

/-- Input of the patch-session route (`PATCH /:id`). -/
structure PatchSessionInput where
  title : Option String := none
  endedAtInput : Option Nat := none
  protocol : Option String := none
  status : Option SessionStatus := none

/-- The patch route's validator allows only `active`, `completed`, `cancelled`
as a target status. -/
def patchStatusValid : Option SessionStatus → Bool
  | none => true
  | some s => s == .active || s == .completed || s == .cancelled

/-- The updated session assembled by the patch route (applied via
`findByIdAndUpdate`, which bypasses the schema hook). -/
def applySessionPatch (_today now : Nat) (actor : Nat) (s : Session)
    (inp : PatchSessionInput) : Session :=
  let s1 := match inp.title with
    | some t => if t != "" then { s with title := t } else s
    | none => s
  let s2 := match inp.status with
    | some ns =>
      let sa := { s1 with status := ns }
      let sb := if ns == .ended && s.endedAt == none then { sa with endedAt := some now } else sa
      if ns == .signed && s.signedAt == none then
        { sb with signedAt := some now, signedBy := some actor }
      else sb
    | none => s1
  let s3 := match inp.endedAtInput with
    | some t => { s2 with endedAt := some t }
    | none => s2
  match inp.protocol with
  | some p => { s3 with protocol := some (injectParticipantsHeader p s.attendees) }
  | none => s3

/-- Protocol-specific guard step of the patch route (runs after the status
transition check), then the `findByIdAndUpdate` write. -/
def checkProtocolThenApply (today now : Nat) (st : Store) (id actor : Nat)
    (s : Session) (inp : PatchSessionInput) : Except ApiError Store :=
  match inp.protocol with
  | some _ =>
    let hearing := lookup st.hearings s.hearingId
    let g := canEditProtocol today (some s) hearing
    if !g.allowed then .error (.guardDenied g.error)
    else
      let l := setById st.sessions id (fun _ => applySessionPatch today now actor s inp)
      .ok { st with sessions := l }
  | none =>
    let l := setById st.sessions id (fun _ => applySessionPatch today now actor s inp)
    .ok { st with sessions := l }

/-- `PATCH /:id` (update discussion session): status changes go through
`canTransitionState`; a protocol change goes through `canEditProtocol` with
the session's hearing; updates are applied with `findByIdAndUpdate`. -/
def patchSession (today now : Nat) (st : Store) (id actor : Nat)
    (inp : PatchSessionInput) : Except ApiError Store :=
  if !(patchStatusValid inp.status) then .error .validationFailed
  else
    match lookup st.sessions id with
    | none => .error .notFound
    | some s =>
      match lookup st.cases s.caseId with
      | none => .error .notFound
      | some _ =>
        match inp.status with
        | some ns =>
          if !(canTransitionState s.status ns).allowed then .error .invalidTransition
          else checkProtocolThenApply today now st id actor s inp
        | none => checkProtocolThenApply today now st id actor s inp

/-- `POST /:id/attendees`: attendees are addable only while the session is
`created` or `active`, and duplicates by (type, name) are rejected. -/
def addAttendee (now : Nat) (st : Store) (id : Nat) (a : Attendee) :
    Except ApiError Store :=
  if a.name == "" then .error .validationFailed
  else
    match lookup st.sessions id with
    | none => .error .notFound
    | some s =>
      match lookup st.cases s.caseId with
      | none => .error .notFound
      | some _ =>
        if s.status != .active && s.status != .created then .error .attendeesLocked
        else if s.attendees.any (fun b => b.type == a.type && b.name == a.name) then
          .error .attendeeExists
        else
          match saveSession now st id s { s with attendees := s.attendees ++ [a] } with
          | .error _ => .error .internalError
          | .ok st2 => .ok st2

/-- `DELETE /:id/attendees/:index`: removable only while `created`/`active`;
the parsed index must be in range. -/
def removeAttendee (now : Nat) (st : Store) (id : Nat) (idx : Int) :
    Except ApiError Store :=
  match lookup st.sessions id with
  | none => .error .notFound
  | some s =>
    match lookup st.cases s.caseId with
    | none => .error .notFound
    | some _ =>
      if s.status != .active && s.status != .created then .error .attendeesLocked
      else if idx < 0 || idx >= (s.attendees.length : Int) then .error .invalidAttendeeIndex
      else
        match saveSession now st id s { s with attendees := s.attendees.eraseIdx idx.toNat } with
        | .error _ => .error .internalError
        | .ok st2 => .ok st2

/-! ## Protocol version store -/

/-- The protocol records of one session, in creation order. -/
def protocolsFor (st : Store) (sessionId : Nat) : List ProtocolRec :=
  st.protocols.filter (fun r => r.discussionSessionId == sessionId)

/-- Accumulator step of `findOne().sort(version = -1)`: keep the record with
the strictly greater version (the earlier record wins ties). -/
def pickLatest (acc : Option ProtocolRec) (r : ProtocolRec) : Option ProtocolRec :=
  match acc with
  | none => some r
  | some b => if r.version > b.version then some r else some b

/-- `Protocol.findOne(discussionSessionId).sort(version = -1)`. -/
def latestProtocolFor (st : Store) (sessionId : Nat) : Option ProtocolRec :=
  (protocolsFor st sessionId).foldl pickLatest none

/-- The per-record effect of `updateMany(discussionSessionId,
isCurrentVersion = true → false)`. -/
def demoteRec (sessionId : Nat) (r : ProtocolRec) : ProtocolRec :=
  if r.discussionSessionId == sessionId && r.isCurrentVersion then
    { r with isCurrentVersion := false }
  else r

/-- `Protocol.updateMany(discussionSessionId, isCurrentVersion = true →
isCurrentVersion = false)`. -/
def demoteCurrents (st : Store) (sessionId : Nat) : Store :=
  { st with protocols := st.protocols.map (demoteRec sessionId) }

/-- Shared tail of the two protocol-writing routes: compute the next version
(`versionOverride` models the create route's caller-supplied `version`,
falsy `0` falls back to the computed value), demote the previous current
version only when the latest-by-version record is current, and append the
new record as current. -/
def appendVersion (st : Store) (sessionId caseId : Nat) (contentWithHeader : String)
    (versionOverride : Option Int) (createdBy : Nat) : Store :=
  let latest := latestProtocolFor st sessionId
  let computed : Int := match latest with
    | some lp => lp.version + 1
    | none => 1
  let nextVersion : Int := match versionOverride with
    | some v => if v == 0 then computed else v
    | none => computed
  let st1 := match latest with
    | some lp => if lp.isCurrentVersion then demoteCurrents st sessionId else st
    | none => st
  let newRec : ProtocolRec :=
    { discussionSessionId := sessionId, caseId := caseId, content := contentWithHeader,
      version := nextVersion, isCurrentVersion := true, createdBy := createdBy }
  { st1 with protocols := st1.protocols ++ [newRec] }

/-- `POST /session/:sessionId/save` (save protocol, creating a new version):
guard via `canWriteProtocol` with the session's hearing, lint the content
(never blocks), inject the attendee header, append the next version, and
update the session's materialized `protocol` field through its save hook. -/
def saveProtocolVersion (today now : Nat) (st : Store) (sessionId : Nat)
    (content : String) (createdBy : Nat) : Except ApiError Store :=
  if content == "" then .error .validationFailed
  else
    match lookup st.sessions sessionId with
    | none => .error .notFound
    | some s =>
      match lookup st.cases s.caseId with
      | none => .error .notFound
      | some _ =>
        let hearing := lookup st.hearings s.hearingId
        let g := canWriteProtocol today (some s) hearing
        if !g.allowed then .error (.guardDenied g.error)
        else if !(validateProtocolContent content).allowed then .error .validationFailed
        else
          let contentWithHeader := injectParticipantsHeader content s.attendees
          let st2 := appendVersion st sessionId s.caseId contentWithHeader none createdBy
          match saveSession now st2 sessionId s { s with protocol := some contentWithHeader } with
          | .error _ => .error .internalError
          | .ok st3 => .ok st3

/-- `POST /` (create protocol): same flow as the save route except that the
case id comes from the request body and a caller-supplied `version`
overrides the computed next version. -/
def createProtocol (today now : Nat) (st : Store) (discussionSessionId caseId : Nat)
    (content : String) (version : Option Int) (createdBy : Nat) : Except ApiError Store :=
  if content == "" then .error .validationFailed
  else
    match lookup st.sessions discussionSessionId with
    | none => .error .notFound
    | some s =>
      match lookup st.cases caseId with
      | none => .error .notFound
      | some _ =>
        let hearing := lookup st.hearings s.hearingId
        let g := canWriteProtocol today (some s) hearing
        if !g.allowed then .error (.guardDenied g.error)
        else if !(validateProtocolContent content).allowed then .error .validationFailed
        else
          let contentWithHeader := injectParticipantsHeader content s.attendees
          let st2 := appendVersion st discussionSessionId caseId contentWithHeader version createdBy
          match saveSession now st2 discussionSessionId s
              { s with protocol := some contentWithHeader } with
          | .error _ => .error .internalError
          | .ok st3 => .ok st3

/-! ## Decision lifecycle -/

/-- The limiter's query filter: decisions of the user in `draft` status that
are not soft-deleted. -/
def openPred (userId : Nat) (p : Nat × Decision) : Bool :=
  p.2.createdBy == userId && p.2.status == .draft && !p.2.isDeleted

/-- `checkOpenDocumentsLimit` count. -/
def countOpenDocuments (st : Store) (userId : Nat) : Nat :=
  (st.decisions.filter (openPred userId)).length

/-- `MAX_OPEN_DOCUMENTS` ceiling of the limiter middleware. -/
def MAX_OPEN_DOCUMENTS : Nat := 4

/-- Input of the create-decision route (`POST /` of the decision router). -/
structure CreateDecisionInput where
  caseId : Nat
  type : DecisionType
  title : String
  summary : Option String := none
  content : Option String := none
  documentId : Option Nat := none
  requestId : Option Nat := none
  discussionSessionId : Option Nat := none
  closesDiscussion : Option Bool := none
  status : Option DecisionStatus := none

/-- `POST /` (create decision): runs the open-documents limiter middleware
first, validates, forces `closesDiscussion` for final decisions, inserts the
draft (or caller-supplied status) and — when a final decision is linked to a
session — drives that session's status straight to `completed` via
`findByIdAndUpdate`, bypassing the transition guard and the schema hook. -/
def createDecision (now : Nat) (st : Store) (newId userId : Nat)
    (inp : CreateDecisionInput) : Except ApiError Store :=
  let c := countOpenDocuments st userId
  if c ≥ MAX_OPEN_DOCUMENTS then .error (.openDocumentsLimitExceeded c MAX_OPEN_DOCUMENTS)
  else if inp.title == "" then .error .validationFailed
  else if inp.type == .note_decision && inp.requestId == none then .error .requestIdRequired
  else
    let shouldCloseDiscussion :=
      if inp.type == .final_decision then true else inp.closesDiscussion.getD false
    let d : Decision :=
      { caseId := inp.caseId, type := inp.type, title := inp.title,
        summary := inp.summary, content := inp.content, documentId := inp.documentId,
        requestId := if inp.type == .note_decision then inp.requestId else none,
        discussionSessionId :=
          if inp.type == .discussion_decision || inp.type == .final_decision then
            inp.discussionSessionId
          else none,
        closesDiscussion := shouldCloseDiscussion,
        status := inp.status.getD .draft,
        publishedAt := if inp.status == some .signed then some now else none,
        createdBy := userId }
    let st1 := { st with decisions := st.decisions ++ [(newId, d)] }
    match inp.type == .final_decision, inp.discussionSessionId with
    | true, some sid =>
      let l := setById st1.sessions sid (fun s => { s with status := .completed })
      .ok { st1 with sessions := l }
    | _, _ => .ok st1

/-- Patch body of `PATCH /:id` on decisions. -/
structure DecisionPatch where
  title : Option String := none
  summary : Option String := none
  content : Option String := none
  documentId : Option Nat := none
  requestId : Option Nat := none
  discussionSessionId : Option Nat := none
  closesDiscussion : Option Bool := none
  status : Option DecisionStatus := none

/-- The updated decision assembled by the patch route (`title` only when
truthy, the other fields whenever supplied; moving to `signed` stamps
`publishedAt` if it was never set). -/
def applyDecisionPatch (now : Nat) (d : Decision) (p : DecisionPatch) : Decision :=
  let d1 := match p.title with
    | some t => if t != "" then { d with title := t } else d
    | none => d
  let d2 := match p.summary with
    | some v => { d1 with summary := some v }
    | none => d1
  let d3 := match p.content with
    | some v => { d2 with content := some v }
    | none => d2
  let d4 := match p.documentId with
    | some v => { d3 with documentId := some v }
    | none => d3
  let d5 := match p.requestId with
    | some v => { d4 with requestId := some v }
    | none => d4
  let d6 := match p.discussionSessionId with
    | some v => { d5 with discussionSessionId := some v }
    | none => d5
  let d7 := match p.closesDiscussion with
    | some v => { d6 with closesDiscussion := v }
    | none => d6
  match p.status with
  | some ns =>
    let d8 := { d7 with status := ns }
    if ns == .signed && d.publishedAt == none then { d8 with publishedAt := some now }
    else d8
  | none => d7

/-- `PATCH /:id` (update decision): a signed decision is rejected outright;
otherwise the patch is applied via `findByIdAndUpdate` (no schema hook). -/
def updateDecision (now : Nat) (st : Store) (id : Nat) (p : DecisionPatch) :
    Except ApiError Store :=
  if p.title == some "" then .error .validationFailed
  else
    match lookup st.decisions id with
    | none => .error .notFound
    | some d =>
      if d.status == .signed then .error .decisionSigned
      else
        let l := setById st.decisions id (fun _ => applyDecisionPatch now d p)
        .ok { st with decisions := l }

/-- The store after the two reciprocal link writes of the revoke route. -/
def afterRevoke (st : Store) (id revokingId : Nat) : Store :=
  let l1 := setById st.decisions id (fun x => { x with revokingDecisionId := some revokingId })
  let l2 := setById l1 revokingId (fun x => { x with revokedByDecisionId := some id })
  { st with decisions := l2 }

/-- `POST /:id/revoke`: the target must exist and be signed and the revoking
decision must exist; both back-references are then written unconditionally
(no check that either side already carries a link). -/
def revokeDecision (st : Store) (id revokingId : Nat) : Except ApiError Store :=
  match lookup st.decisions id with
  | none => .error .notFound
  | some d =>
    if d.status != .signed then .error .onlySignedCanBeRevoked
    else
      match lookup st.decisions revokingId with
      | none => .error .notFound
      | some _ => .ok (afterRevoke st id revokingId)

/-- Soft-delete flags written by the delete route. -/
def markDeleted (now userId : Nat) (x : Decision) : Decision :=
  { x with isDeleted := true, deletedAt := some now, deletedBy := some userId }

/-- The store after the delete route's soft-delete write. -/
def softDeletedStore (now : Nat) (st : Store) (id userId : Nat) : Store :=
  { st with decisions := setById st.decisions id (markDeleted now userId) }

/-- `DELETE /:id` (soft delete): a signed decision can never be deleted;
otherwise the record is flagged deleted but kept in the store. -/
def softDeleteDecision (now : Nat) (st : Store) (id userId : Nat) :
    Except ApiError Store :=
  match lookup st.decisions id with
  | none => .error .notFound
  | some d =>
    if d.status == .signed then .error .signedDecisionCannotBeDeleted
    else .ok (softDeletedStore now st id userId)

/-- Body of the create-decision-from-request route. -/
structure RequestDecisionInput where
  title : String
  content : String
  isFinalDecision : Option Bool := none
  closesCase : Option Bool := none

/-- `POST /:id/decision` on the request router: creates a `draft` decision for
the request's case WITHOUT passing through the open-documents limiter;
`closesCase` additionally closes the parent case. -/
def createDecisionFromRequest (st : Store) (requestId newId userId : Nat)
    (inp : RequestDecisionInput) : Except ApiError Store :=
  if inp.title == "" || inp.content == "" then .error .validationFailed
  else
    match lookup st.requests requestId with
    | none => .error .notFound
    | some rq =>
      match lookup st.cases rq.caseId with
      | none => .error .notFound
      | some _ =>
        let dType : DecisionType :=
          if inp.isFinalDecision.getD false then .final_decision else .note_decision
        let d : Decision :=
          { caseId := rq.caseId, type := dType, title := inp.title,
            content := some inp.content, requestId := some requestId,
            closesCase := inp.closesCase.getD false,
            closesDiscussion := inp.isFinalDecision.getD false,
            status := .draft, createdBy := userId }
        let st1 := { st with decisions := st.decisions ++ [(newId, d)] }
        if inp.closesCase.getD false then
          let l := setById st1.cases rq.caseId (fun _ => "closed")
          .ok { st1 with cases := l }
        else .ok st1

/-! ## Store helper lemmas -/

theorem lookup_setById_self (l : List (Nat × α)) (id : Nat) (f : α → α) :
    lookup (setById l id f) id = (lookup l id).map f := by
  induction l with
  | nil => rfl
  | cons hd tl ih =>
    obtain ⟨i, x⟩ := hd
    cases hb : (i == id) with
    | true => simp [setById, lookup, hb]
    | false => simp [setById, lookup, hb, ih]

theorem lookup_setById_ne (l : List (Nat × α)) (id id2 : Nat) (f : α → α) (h : id2 ≠ id) :
    lookup (setById l id f) id2 = lookup l id2 := by
  induction l with
  | nil => rfl
  | cons hd tl ih =>
    obtain ⟨i, x⟩ := hd
    cases hb : (i == id) with
    | true =>
      have hb2 : (i == id2) = false := by
        simp only [beq_eq_false_iff_ne]
        intro e
        exact h (by rw [← e]; exact (beq_iff_eq.mp hb))
      simp [setById, lookup, hb, hb2, ih]
    | false =>
      cases hb2 : (i == id2) with
      | true => simp [setById, lookup, hb, hb2]
      | false => simp [setById, lookup, hb, hb2, ih]

theorem setById_map_fst (l : List (Nat × α)) (id : Nat) (f : α → α) :
    (setById l id f).map Prod.fst = l.map Prod.fst := by
  induction l with
  | nil => rfl
  | cons hd tl ih =>
    obtain ⟨i, x⟩ := hd
    cases hb : (i == id) with
    | true => simp [setById, hb, ih]
    | false => simp [setById, hb, ih]

theorem lookup_append_of_none (l : List (Nat × α)) (id : Nat) (x : α)
    (h : lookup l id = none) : lookup (l ++ [(id, x)]) id = some x := by
  induction l with
  | nil => simp [lookup]
  | cons hd tl ih =>
    obtain ⟨i, y⟩ := hd
    cases hb : (i == id) with
    | true => simp [lookup, hb] at h
    | false =>
      simp only [lookup, List.cons_append, hb] at h ⊢
      exact ih h

/-! ## C9 -/

/-- C9: when the hearing lookup yields no hearing document, `canWriteProtocol`
skips the hearing-day gate entirely: an `active` session with at least one
attendee is allowed although no scheduled-date comparison was performed. -/
theorem C9_guard_skips_date_without_hearing (today : Nat) (s : Session)
    (hact : s.status = .active) (hatt : s.attendees ≠ []) :
    canWriteProtocol today (some s) none = { allowed := true, error := none } := by
  unfold canWriteProtocol
  have h2 : (s.status != SessionStatus.active) = false := by simp [hact]
  have h3 : s.attendees.isEmpty = false := by simpa using hatt
  simp [h2, h3]

/-- Witness for C9 at a concrete active session with one attendee. -/
def w9session : Session :=
  { hearingId := 99, caseId := 5, title := "t", startedAt := 3,
    attendees := [{ type := .witness, name := "a" }], status := .active }

theorem C9_witness :
    w9session.status = .active ∧ w9session.attendees ≠ [] ∧
    canWriteProtocol 7 (some w9session) none = { allowed := true, error := none } :=
  ⟨rfl, by decide, C9_guard_skips_date_without_hearing 7 w9session rfl (by decide)⟩

/-! ## C10 -/

/-- C10: the create-session route assigns status `active` when the caller
omits a status (never `created`), and accepts a caller-supplied initial
status of `completed` or `cancelled`; in every such case the stored session's
status is `status ?? active`, which is never `created`. -/
theorem C10_create_session_status (st : Store) (nid : Nat) (inp : CreateSessionInput)
    (h : Hearing) (cs : String)
    (hh : lookup st.hearings inp.hearingId = some h)
    (hc : lookup st.cases inp.caseId = some cs)
    (hti : inp.title ≠ "")
    (hstat : inp.status = none ∨ inp.status = some .completed ∨
             inp.status = some .cancelled ∨ inp.status = some .active) :
    createSession st nid inp =
      .ok { st with sessions := st.sessions ++ [(nid, mkCreatedSession h inp)] } ∧
    (mkCreatedSession h inp).status = inp.status.getD .active ∧
    inp.status.getD .active ≠ .created := by
  have hvalid : createSessionStatusValid inp.status = true := by
    rcases hstat with h1 | h1 | h1 | h1 <;> simp [createSessionStatusValid, h1]
  have htib : (inp.title == "") = false := beq_eq_false_iff_ne.mpr hti
  refine ⟨?_, rfl, ?_⟩
  · unfold createSession
    rw [hvalid, htib, hh, hc]
    rfl
  · rcases hstat with h1 | h1 | h1 | h1 <;> rw [h1] <;> decide

/-- Concrete data for the C10 witness. -/
def w10hearing : Hearing := { caseId := 5, scheduledDate := some 5 }

def w10store : Store := {
  hearings := [(99, w10hearing)],
  cases := [(5, "open")]
}

def w10inp : CreateSessionInput :=
  { hearingId := 99, caseId := 5, title := "t", startedAt := 1 }

theorem C10_witness :
    lookup w10store.hearings w10inp.hearingId = some w10hearing ∧
    lookup w10store.cases w10inp.caseId = some "open" ∧
    w10inp.title ≠ "" ∧
    (w10inp.status = none ∨ w10inp.status = some .completed ∨
     w10inp.status = some .cancelled ∨ w10inp.status = some .active) ∧
    (createSession w10store 11 w10inp =
      .ok { w10store with
              sessions := w10store.sessions ++ [(11, mkCreatedSession w10hearing w10inp)] } ∧
     (mkCreatedSession w10hearing w10inp).status = w10inp.status.getD .active ∧
     w10inp.status.getD .active ≠ .created) :=
  ⟨rfl, rfl, by decide, Or.inl rfl,
    C10_create_session_status w10store 11 w10inp w10hearing "open" rfl rfl (by decide)
      (Or.inl rfl)⟩

/-! ## C1 -/

/-- Concrete decisions for the C1 counterexample: decision 1 is signed,
2 and 3 exist as draft decisions. -/
def c1signed : Decision :=
  { caseId := 5, type := .note_decision, title := "d", status := .signed,
    requestId := some 1, createdBy := 7 }

def c1draft : Decision :=
  { caseId := 5, type := .note_decision, title := "r", status := .draft, createdBy := 7 }

def c1store : Store := {
  cases := [(5, "open")],
  decisions := [(1, c1signed), (2, c1draft), (3, c1draft)]
}

/-- C1 counterexample: after a first successful revoke of decision 1 by
decision 2, a SECOND revoke of decision 1 (by decision 3) also succeeds and
overwrites the link, contradicting the claim that a revoke is rejected once
either side carries a revocation link and that any later revoke fails. -/
theorem C1_counterexample :
    (revokeDecision c1store 1 2).isOk = true ∧
    ((revokeDecision c1store 1 2).bind (fun a => revokeDecision a 1 3)).isOk = true ∧
    ((revokeDecision c1store 1 2).bind (fun a => revokeDecision a 1 3)).toOption.bind
        (fun b => (lookup b.decisions 1).map Decision.revokingDecisionId) = some (some 3) :=
  ⟨rfl, rfl, rfl⟩

/-- C1 (amended): `revoke(targetId, revokingId)` succeeds exactly when the
target exists with status `signed` and the revoking decision exists —
regardless of any revocation link already present on either side — and on
success sets `target.revokingDecisionId = revokingId` and
`revoker.revokedByDecisionId = targetId`, overwriting previous links; a
missing target or revoker yields `notFound` and an unsigned target is
rejected.  A later revoke therefore succeeds as well. -/
theorem C1_amended
    (st : Store) (id rid : Nat) (d r : Decision)
    (hd : lookup st.decisions id = some d)
    (hsig : d.status = .signed)
    (hr : lookup st.decisions rid = some r)
    (hne : rid ≠ id)
    (stB : Store) (idB ridB : Nat) (dB : Decision)
    (hdB : lookup stB.decisions idB = some dB)
    (hnsB : dB.status ≠ .signed)
    (stC : Store) (idC ridC : Nat)
    (hdC : lookup stC.decisions idC = none)
    (stD : Store) (idD ridD : Nat) (dD : Decision)
    (hdD : lookup stD.decisions idD = some dD)
    (hsD : dD.status = .signed)
    (hrD : lookup stD.decisions ridD = none) :
    (revokeDecision st id rid).isOk = true ∧
    ((revokeDecision st id rid).toOption.bind (fun b => lookup b.decisions id))
      = some { d with revokingDecisionId := some rid } ∧
    ((revokeDecision st id rid).toOption.bind (fun b => lookup b.decisions rid))
      = some { r with revokedByDecisionId := some id } ∧
    revokeDecision stB idB ridB = .error .onlySignedCanBeRevoked ∧
    revokeDecision stC idC ridC = .error .notFound ∧
    revokeDecision stD idD ridD = .error .notFound := by
  have hbs : (d.status != DecisionStatus.signed) = false := by simp [hsig]
  have hok : revokeDecision st id rid = .ok (afterRevoke st id rid) := by
    unfold revokeDecision
    simp [hd, hbs, hr]
  refine ⟨by rw [hok]; rfl, ?_, ?_, ?_, ?_, ?_⟩
  · rw [hok]
    show lookup (afterRevoke st id rid).decisions id = _
    show lookup (setById (setById st.decisions id _) rid _) id = _
    rw [lookup_setById_ne _ _ _ _ (Ne.symm hne), lookup_setById_self, hd]
    rfl
  · rw [hok]
    show lookup (afterRevoke st id rid).decisions rid = _
    show lookup (setById (setById st.decisions id _) rid _) rid = _
    rw [lookup_setById_self, lookup_setById_ne _ _ _ _ hne, hr]
    rfl
  · have hb : (dB.status != DecisionStatus.signed) = true := bne_iff_ne.mpr hnsB
    unfold revokeDecision
    simp [hdB, hb]
  · unfold revokeDecision
    simp [hdC]
  · have hb : (dD.status != DecisionStatus.signed) = false := by simp [hsD]
    unfold revokeDecision
    simp [hdD, hb, hrD]

/-- Witness for C1 (amended) on the concrete store `c1store`. -/
theorem C1_amended_witness :
    lookup c1store.decisions 1 = some c1signed ∧ c1signed.status = .signed ∧
    lookup c1store.decisions 2 = some c1draft ∧ (2 : Nat) ≠ 1 ∧
    lookup c1store.decisions 2 = some c1draft ∧ c1draft.status ≠ .signed ∧
    lookup c1store.decisions 77 = none ∧
    lookup c1store.decisions 1 = some c1signed ∧ c1signed.status = .signed ∧
    lookup c1store.decisions 88 = none ∧
    ((revokeDecision c1store 1 2).isOk = true ∧
     ((revokeDecision c1store 1 2).toOption.bind (fun b => lookup b.decisions 1))
       = some { c1signed with revokingDecisionId := some 2 } ∧
     ((revokeDecision c1store 1 2).toOption.bind (fun b => lookup b.decisions 2))
       = some { c1draft with revokedByDecisionId := some 1 } ∧
     revokeDecision c1store 2 3 = .error .onlySignedCanBeRevoked ∧
     revokeDecision c1store 77 3 = .error .notFound ∧
     revokeDecision c1store 1 88 = .error .notFound) :=
  ⟨rfl, rfl, rfl, by decide, rfl, by decide, rfl, rfl, rfl, rfl,
    C1_amended c1store 1 2 c1signed c1draft rfl rfl rfl (by decide)
      c1store 2 3 c1draft rfl (by decide)
      c1store 77 3 rfl
      c1store 1 88 c1signed rfl rfl rfl⟩

/-! ## C7 -/

/-- C7: on a signed decision, any update whose patch passes validation
(in particular one touching `content` or `title`) fails with the
immutable-decision error; soft delete fails with the
signed-cannot-be-deleted error; both leave the store unchanged (errors
commit nothing), and a successful soft delete of any decision never removes
a record — the stored ids are preserved, so no decision is hard-deleted. -/
theorem C7_signed_decision_immutable
    (now nowDel now2 : Nat) (st st2 : Store) (id id2 u u2 : Nat) (d : Decision)
    (p : DecisionPatch)
    (hd : lookup st.decisions id = some d)
    (hsig : d.status = .signed)
    (hti : p.title ≠ some "")
    (hdel : softDeleteDecision now2 st id2 u2 = .ok st2) :
    updateDecision now st id p = .error .decisionSigned ∧
    softDeleteDecision nowDel st id u = .error .signedDecisionCannotBeDeleted ∧
    st2.decisions.map Prod.fst = st.decisions.map Prod.fst := by
  have htib : (p.title == some "") = false := beq_eq_false_iff_ne.mpr hti
  have hbs : (d.status == DecisionStatus.signed) = true := by simp [hsig]
  refine ⟨?_, ?_, ?_⟩
  · unfold updateDecision
    simp [htib, hd, hbs]
  · unfold softDeleteDecision
    simp [hd, hbs]
  · unfold softDeleteDecision at hdel
    split at hdel
    · exact absurd hdel (by simp)
    · split at hdel
      · exact absurd hdel (by simp)
      · cases hdel
        exact setById_map_fst _ _ _

/-- Concrete store for the C7 witness: decision 9 is signed, decision 2 is a
draft that soft-deletes successfully. -/
def c7store : Store := {
  cases := [(5, "open")],
  decisions := [(9, c1signed), (2, c1draft)]
}

theorem C7_witness :
    lookup c7store.decisions 9 = some c1signed ∧ c1signed.status = .signed ∧
    (some "x" : Option String) ≠ some "" ∧
    softDeleteDecision 3 c7store 2 7 =
      .ok { c7store with decisions := setById c7store.decisions 2 (markDeleted 3 7) } ∧
    (updateDecision 1 c7store 9 { content := some "x", title := some "x" }
        = .error .decisionSigned ∧
     softDeleteDecision 2 c7store 9 7 = .error .signedDecisionCannotBeDeleted ∧
     ({ c7store with decisions := setById c7store.decisions 2 (markDeleted 3 7) } :
        Store).decisions.map Prod.fst = c7store.decisions.map Prod.fst) :=
  ⟨rfl, rfl, by decide, rfl,
    C7_signed_decision_immutable 1 2 3 c7store
      { c7store with decisions := setById c7store.decisions 2 (markDeleted 3 7) }
      9 2 7 7 c1signed { content := some "x", title := some "x" } rfl rfl (by decide) rfl⟩

/-! ## C5 -/

/-- Concrete store for the C5 counterexample: session 4 is `ended` with an
empty protocol and no snapshot. -/
def c5endedEmpty : Session :=
  { hearingId := 99, caseId := 5, title := "t", startedAt := 3,
    attendees := [{ type := .witness, name := "a" }], status := .ended }

def c5store : Store := {
  cases := [(5, "open")],
  sessions := [(4, c5endedEmpty)]
}

/-- C5 counterexample: signing an `ended` session whose protocol is empty
succeeds, yet `protocolSnapshot` remains unset afterwards — refuting the
claim that after signing the snapshot is always populated. -/
theorem C5_counterexample :
    (signSession 42 c5store 4 7).isOk = true ∧
    ((signSession 42 c5store 4 7).toOption.bind
        fun b => (lookup b.sessions 4).map Session.protocolSnapshot) = some none :=
  ⟨rfl, rfl⟩

/-- C5 (amended): active→ended stamps `endedAt = now` and freezes
`protocolSnapshot` from a non-empty protocol; ended→signed stamps
`signedAt = now` and `signedBy = actor` and backfills the snapshot from a
non-empty protocol when it is still empty — so after signing the snapshot is
populated exactly when the protocol or a previous snapshot was non-empty (a
session signed with both empty keeps an empty snapshot). -/
theorem C5_amended
    (nowA : Nat) (stA : Store) (sidA : Nat) (sA : Session) (csA : String)
    (hsA : lookup stA.sessions sidA = some sA)
    (hcA : lookup stA.cases sA.caseId = some csA)
    (hactA : sA.status = .active)
    (nowB : Nat) (stB : Store) (sidB actorB : Nat) (sB : Session) (csB : String)
    (hsB : lookup stB.sessions sidB = some sB)
    (hcB : lookup stB.cases sB.caseId = some csB)
    (hendB : sB.status = .ended) :
    ((endSession nowA stA sidA).toOption.bind fun b => lookup b.sessions sidA)
      = some { sA with
          status := .ended, endedAt := some nowA,
          protocolSnapshot :=
            if optTruthy sA.protocol then sA.protocol else sA.protocolSnapshot } ∧
    ((signSession nowB stB sidB actorB).toOption.bind fun b => lookup b.sessions sidB)
      = some { sB with
          status := .signed, signedAt := some nowB, signedBy := some actorB,
          protocolSnapshot :=
            if optTruthy sB.protocol && !(optTruthy sB.protocolSnapshot) then sB.protocol
            else sB.protocolSnapshot } ∧
    optTruthy (if optTruthy sB.protocol && !(optTruthy sB.protocolSnapshot) then sB.protocol
               else sB.protocolSnapshot)
      = (optTruthy sB.protocol || optTruthy sB.protocolSnapshot) := by
  refine ⟨?_, ?_, ?_⟩
  · by_cases hp : optTruthy sA.protocol = true
    · simp [endSession, hsA, hcA, hactA, canTransitionState, allowedNextStates,
        saveSession, sessionSaveHook, lookup_setById_self, hp, Except.toOption]
    · simp at hp
      simp [endSession, hsA, hcA, hactA, canTransitionState, allowedNextStates,
        saveSession, sessionSaveHook, lookup_setById_self, hp, Except.toOption]
  · simp [signSession, hsB, hcB, hendB, canTransitionState, allowedNextStates,
      saveSession, sessionSaveHook, lookup_setById_self, Except.toOption]
  · cases hx : optTruthy sB.protocol <;> cases hy : optTruthy sB.protocolSnapshot <;>
      simp [hx, hy]

/-- Concrete store for the C5 witness: session 10 is active with a non-empty
protocol, session 4 is ended with an empty protocol. -/
def c5active : Session :=
  { hearingId := 99, caseId := 5, title := "t", startedAt := 3,
    attendees := [{ type := .witness, name := "a" }], status := .active,
    protocol := some "P" }

def c5wstore : Store := {
  cases := [(5, "open")],
  sessions := [(10, c5active), (4, c5endedEmpty)]
}

theorem C5_witness :
    lookup c5wstore.sessions 10 = some c5active ∧
    lookup c5wstore.cases c5active.caseId = some "open" ∧
    c5active.status = .active ∧
    lookup c5wstore.sessions 4 = some c5endedEmpty ∧
    lookup c5wstore.cases c5endedEmpty.caseId = some "open" ∧
    c5endedEmpty.status = .ended ∧
    (((endSession 42 c5wstore 10).toOption.bind fun b => lookup b.sessions 10)
       = some { c5active with
           status := .ended, endedAt := some 42,
           protocolSnapshot :=
             if optTruthy c5active.protocol then c5active.protocol
             else c5active.protocolSnapshot } ∧
     ((signSession 43 c5wstore 4 7).toOption.bind fun b => lookup b.sessions 4)
       = some { c5endedEmpty with
           status := .signed, signedAt := some 43, signedBy := some 7,
           protocolSnapshot :=
             if optTruthy c5endedEmpty.protocol && !(optTruthy c5endedEmpty.protocolSnapshot)
             then c5endedEmpty.protocol
             else c5endedEmpty.protocolSnapshot } ∧
     optTruthy (if optTruthy c5endedEmpty.protocol &&
                   !(optTruthy c5endedEmpty.protocolSnapshot)
                then c5endedEmpty.protocol
                else c5endedEmpty.protocolSnapshot)
       = (optTruthy c5endedEmpty.protocol || optTruthy c5endedEmpty.protocolSnapshot)) :=
  ⟨rfl, rfl, rfl, rfl, rfl, rfl,
    C5_amended 42 c5wstore 10 c5active "open" rfl rfl rfl
      43 c5wstore 4 7 c5endedEmpty "open" rfl rfl rfl⟩

/-! ## C6 -/

/-- Concrete store for C6: session 20 is active with no attendees; its
hearing 8 is scheduled on day 5. -/
def c6session : Session :=
  { hearingId := 8, caseId := 5, title := "t", startedAt := 3,
    attendees := [], status := .active }

def c6store : Store := {
  cases := [(5, "open")],
  sessions := [(20, c6session)],
  hearings := [(8, { caseId := 5, scheduledDate := some 5 })]
}

/-- C6 counterexample: on a day other than the hearing day (today = 9,
scheduled day = 5) the save fails with `PROTOCOL_LOCKED`, not
`NO_PARTICIPANTS`, although the session is active with zero attendees — the
date gate is evaluated before the attendee gate. -/
theorem C6_counterexample :
    saveProtocolVersion 9 0 c6store 20 "x" 7 =
      .error (.guardDenied (some .PROTOCOL_LOCKED)) ∧
    saveProtocolVersion 9 0 c6store 20 "x" 7 ≠
      .error (.guardDenied (some .NO_PARTICIPANTS)) :=
  ⟨rfl, by
    intro h
    rw [show saveProtocolVersion 9 0 c6store 20 "x" 7 =
        .error (.guardDenied (some .PROTOCOL_LOCKED)) from rfl] at h
    simp at h⟩

/-- C6 (amended): for an active session with an empty attendee list,
`saveProtocolVersion` fails with `NO_PARTICIPANTS` (persisting nothing)
whenever the hearing-day gate does not fire first, i.e. when no hearing
record is found or today matches the hearing day; otherwise it still fails,
with `PROTOCOL_LOCKED`. -/
theorem C6_amended
    (today now : Nat) (st : Store) (sid u : Nat) (s : Session) (cs : String)
    (content : String)
    (hs : lookup st.sessions sid = some s)
    (hc : lookup st.cases s.caseId = some cs)
    (hact : s.status = .active)
    (hatt : s.attendees = [])
    (hcont : content ≠ "")
    (hdate : lookup st.hearings s.hearingId = none ∨
             isHearingDate today (some s) (lookup st.hearings s.hearingId) = true) :
    saveProtocolVersion today now st sid content u =
      .error (.guardDenied (some .NO_PARTICIPANTS)) := by
  have hcb : (content == "") = false := beq_eq_false_iff_ne.mpr hcont
  have hguard : canWriteProtocol today (some s) (lookup st.hearings s.hearingId) =
      { allowed := false, error := some .NO_PARTICIPANTS } := by
    unfold canWriteProtocol
    rcases hdate with h1 | h1
    · simp [h1, hact, hatt]
    · simp [h1, hact, hatt]
  unfold saveProtocolVersion
  simp [hcb, hs, hc, hguard]

/-- Witness for C6 (amended) on the hearing day itself (today = 5). -/
theorem C6_witness :
    lookup c6store.sessions 20 = some c6session ∧
    lookup c6store.cases c6session.caseId = some "open" ∧
    c6session.status = .active ∧
    c6session.attendees = [] ∧
    ("x" : String) ≠ "" ∧
    (lookup c6store.hearings c6session.hearingId = none ∨
     isHearingDate 5 (some c6session) (lookup c6store.hearings c6session.hearingId) = true) ∧
    saveProtocolVersion 5 0 c6store 20 "x" 7 =
      .error (.guardDenied (some .NO_PARTICIPANTS)) :=
  ⟨rfl, rfl, rfl, rfl, by decide, Or.inr rfl,
    C6_amended 5 0 c6store 20 7 c6session "open" "x" rfl rfl rfl rfl (by decide)
      (Or.inr rfl)⟩

/-! ## C4 -/

/-- Concrete store for C4: session 3 is signed. -/
def c4signed : Session :=
  { hearingId := 99, caseId := 5, title := "t", startedAt := 3,
    attendees := [{ type := .witness, name := "a" }], status := .signed }

def c4store : Store := {
  cases := [(5, "open")],
  sessions := [(3, c4signed)]
}

def c4dinp : CreateDecisionInput :=
  { caseId := 5, type := .final_decision, title := "f", discussionSessionId := some 3 }

/-- C4 counterexample: creating a final decision linked to a SIGNED session
succeeds and drives that session's status to `completed` — mutating the
status of a signed session, contrary to the claim that every subsequent
operation on a signed session fails. -/
theorem C4_counterexample :
    (lookup c4store.sessions 3).map Session.status = some .signed ∧
    ((createDecision 0 c4store 50 7 c4dinp).toOption.bind
        fun b => (lookup b.sessions 3).map Session.status) = some .completed :=
  ⟨rfl, rfl⟩

/-- C4 (amended): on a signed session every guarded operation fails — start,
end, sign, a patch touching status or protocol, attendee add/remove, and both
protocol writes — but creating a final decision linked to the session
bypasses the transition table via `findByIdAndUpdate` and sets the signed
session's status to `completed`. -/
theorem C4_amended
    (today now now2 : Nat) (st : Store) (sid : Nat) (s : Session)
    (actor u newId caseId2 : Nat) (a : Attendee) (idx : Int) (content : String)
    (v : Option Int) (pinp : PatchSessionInput) (dinp : CreateDecisionInput)
    (hs : lookup st.sessions sid = some s)
    (hsig : s.status = .signed)
    (hp : pinp.status ≠ none ∨ pinp.protocol ≠ none)
    (hcount : countOpenDocuments st u < 4)
    (hdt : dinp.type = .final_decision)
    (hdl : dinp.discussionSessionId = some sid)
    (hti : dinp.title ≠ "") :
    (startSession now st sid).isOk = false ∧
    (endSession now st sid).isOk = false ∧
    (signSession now st sid actor).isOk = false ∧
    (patchSession today now st sid actor pinp).isOk = false ∧
    (addAttendee now st sid a).isOk = false ∧
    (removeAttendee now st sid idx).isOk = false ∧
    (saveProtocolVersion today now st sid content u).isOk = false ∧
    (createProtocol today now st sid caseId2 content v u).isOk = false ∧
    ((createDecision now2 st newId u dinp).toOption.bind
        fun st2 => (lookup st2.sessions sid).map Session.status) = some .completed := by
  have htrans : ∀ ns, canTransitionState SessionStatus.signed ns =
      { allowed := false, error := some .INVALID_STATE_TRANSITION } := by
    intro ns; cases ns <;> rfl
  have hg : ∀ hOpt, (canWriteProtocol today (some s) hOpt).allowed = false := by
    intro hOpt
    have hst : (s.status != SessionStatus.active) = true := by rw [hsig]; rfl
    cases hd : (hOpt.isSome && !(isHearingDate today (some s) hOpt)) with
    | true => simp [canWriteProtocol, hd]
    | false => simp [canWriteProtocol, hd, hst]
  refine ⟨?_, ?_, ?_, ?_, ?_, ?_, ?_, ?_, ?_⟩
  · unfold startSession
    cases hcs : lookup st.cases s.caseId <;> simp [hs, hcs, hsig, htrans, Except.isOk, Except.toBool]
  · unfold endSession
    cases hcs : lookup st.cases s.caseId <;> simp [hs, hcs, hsig, htrans, Except.isOk, Except.toBool]
  · unfold signSession
    cases hcs : lookup st.cases s.caseId <;> simp [hs, hcs, hsig, htrans, Except.isOk, Except.toBool]
  · unfold patchSession
    cases hv : patchStatusValid pinp.status with
    | false => simp [hv, Except.isOk, Except.toBool]
    | true =>
      cases hcs : lookup st.cases s.caseId with
      | none => simp [hs, hcs, hv, Except.isOk, Except.toBool]
      | some c =>
        cases hps : pinp.status with
        | some ns => simp [hs, hcs, hv, hps, hsig, htrans, Except.isOk, Except.toBool]
        | none =>
          rcases hp with hp | hp
          · exact absurd hps hp
          · cases hpp : pinp.protocol with
            | none => exact absurd hpp hp
            | some pr =>
              have hce : (canEditProtocol today (some s)
                  (lookup st.hearings s.hearingId)).allowed = false := by
                unfold canEditProtocol
                have : (s.status == SessionStatus.ended || s.status == SessionStatus.signed)
                    = true := by rw [hsig]; rfl
                simp [this]
              simp [hs, hcs, hv, hps, checkProtocolThenApply, hpp, hce, Except.isOk, Except.toBool]
  · unfold addAttendee
    cases hn : (a.name == "") with
    | true => simp [hn, Except.isOk, Except.toBool]
    | false =>
      have hlock : (s.status != SessionStatus.active && s.status != SessionStatus.created)
          = true := by rw [hsig]; rfl
      cases hcs : lookup st.cases s.caseId <;> simp [hs, hcs, hn, hlock, Except.isOk, Except.toBool]
  · unfold removeAttendee
    have hlock : (s.status != SessionStatus.active && s.status != SessionStatus.created)
        = true := by rw [hsig]; rfl
    cases hcs : lookup st.cases s.caseId <;> simp [hs, hcs, hlock, Except.isOk, Except.toBool]
  · unfold saveProtocolVersion
    cases hcc : (content == "") with
    | true => simp [hcc, Except.isOk, Except.toBool]
    | false =>
      cases hcs : lookup st.cases s.caseId <;> simp [hs, hcs, hcc, hg, Except.isOk, Except.toBool]
  · unfold createProtocol
    cases hcc : (content == "") with
    | true => simp [hcc, Except.isOk, Except.toBool]
    | false =>
      cases hcs : lookup st.cases caseId2 <;> simp [hs, hcs, hcc, hg, Except.isOk, Except.toBool]
  · have hlim : (countOpenDocuments st u ≥ MAX_OPEN_DOCUMENTS) = False := by
      simp [MAX_OPEN_DOCUMENTS]
      omega
    have htib : (dinp.title == "") = false := beq_eq_false_iff_ne.mpr hti
    have htyb : (dinp.type == DecisionType.note_decision) = false := by rw [hdt]; rfl
    have htyf : (dinp.type == DecisionType.final_decision) = true := by rw [hdt]; rfl
    unfold createDecision
    simp only [hlim, htib, htyb, htyf, hdl, Bool.false_and, Bool.false_eq_true, if_false,
      ge_iff_le, if_neg (Nat.not_le.mpr (by simpa [MAX_OPEN_DOCUMENTS] using hcount))]
    simp [Except.toOption, lookup_setById_self, hs]

/-- Witness for C4 (amended) at the concrete signed-session store. -/
theorem C4_witness :
    lookup c4store.sessions 3 = some c4signed ∧
    c4signed.status = .signed ∧
    (({ protocol := some "p" } : PatchSessionInput).status ≠ none ∨
     ({ protocol := some "p" } : PatchSessionInput).protocol ≠ none) ∧
    countOpenDocuments c4store 7 < 4 ∧
    c4dinp.type = .final_decision ∧
    c4dinp.discussionSessionId = some 3 ∧
    c4dinp.title ≠ "" ∧
    ((startSession 0 c4store 3).isOk = false ∧
     (endSession 0 c4store 3).isOk = false ∧
     (signSession 0 c4store 3 7).isOk = false ∧
     (patchSession 0 0 c4store 3 7 { protocol := some "p" }).isOk = false ∧
     (addAttendee 0 c4store 3 { type := .expert, name := "b" }).isOk = false ∧
     (removeAttendee 0 c4store 3 0).isOk = false ∧
     (saveProtocolVersion 0 0 c4store 3 "x" 7).isOk = false ∧
     (createProtocol 0 0 c4store 3 5 "x" none 7).isOk = false ∧
     ((createDecision 0 c4store 50 7 c4dinp).toOption.bind
         fun st2 => (lookup st2.sessions 3).map Session.status) = some .completed) :=
  ⟨rfl, rfl, Or.inr (by decide), by decide, rfl, rfl, by decide,
    C4_amended 0 0 0 c4store 3 c4signed 7 7 50 5 { type := .expert, name := "b" } 0 "x"
      none { protocol := some "p" } c4dinp rfl rfl (Or.inr (by decide)) (by decide) rfl rfl
      (by decide)⟩


/-! ## C8 -/

theorem openPred_markDeleted (u now uid i : Nat) (x : Decision) :
    openPred u (i, markDeleted now uid x) = false := by
  simp [openPred, markDeleted]

theorem count_setById_markDeleted_le (l : List (Nat × Decision)) (did u now uid : Nat) :
    ((setById l did (markDeleted now uid)).filter (openPred u)).length ≤
      (l.filter (openPred u)).length := by
  induction l with
  | nil => simp [setById]
  | cons hd tl ih =>
    obtain ⟨i, x⟩ := hd
    cases hb : (i == did) with
    | true =>
      cases hp : openPred u (i, x) with
      | true =>
        simp [setById, hb, List.filter_cons, openPred_markDeleted, hp]
        omega
      | false =>
        simp [setById, hb, List.filter_cons, openPred_markDeleted, hp]
        omega
    | false =>
      cases hp : openPred u (i, x) with
      | true =>
        simp [setById, hb, List.filter_cons, hp]
        omega
      | false =>
        simp [setById, hb, List.filter_cons, hp]
        omega

theorem count_setById_markDeleted_lt (l : List (Nat × Decision)) (did u now uid : Nat)
    (d : Decision) (hmem : lookup l did = some d) (hp : openPred u (did, d) = true) :
    ((setById l did (markDeleted now uid)).filter (openPred u)).length <
      (l.filter (openPred u)).length := by
  induction l with
  | nil => simp [lookup] at hmem
  | cons hd tl ih =>
    obtain ⟨i, x⟩ := hd
    cases hb : (i == did) with
    | true =>
      have hx : x = d := by simpa [lookup, hb] using hmem
      have hid : i = did := beq_iff_eq.mp hb
      have hpx : openPred u (i, x) = true := by rw [hx, hid]; exact hp
      have hle := count_setById_markDeleted_le tl did u now uid
      simp [setById, hb, List.filter_cons, openPred_markDeleted, hpx]
      omega
    | false =>
      have hmem2 : lookup tl did = some d := by simpa [lookup, hb] using hmem
      have hlt := ih hmem2
      cases hpx : openPred u (i, x) with
      | true =>
        simp [setById, hb, List.filter_cons, hpx]
        omega
      | false =>
        simp [setById, hb, List.filter_cons, hpx]
        omega

theorem C8_amended
    (stA : Store) (uA nidA nowA : Nat) (inpA : CreateDecisionInput)
    (hA : countOpenDocuments stA uA ≥ 4)
    (st : Store) (u did now nid now2 : Nat) (d : Decision) (inp : CreateDecisionInput)
    (hd : lookup st.decisions did = some d)
    (hcb : d.createdBy = u) (hds : d.status = .draft) (hdel : d.isDeleted = false)
    (hc4 : countOpenDocuments st u = 4)
    (hti : inp.title ≠ "")
    (hreq : inp.type = .note_decision → inp.requestId ≠ none) :
    createDecision nowA stA nidA uA inpA =
      .error (.openDocumentsLimitExceeded (countOpenDocuments stA uA) 4) ∧
    softDeleteDecision now st did u = .ok (softDeletedStore now st did u) ∧
    (createDecision now2 (softDeletedStore now st did u) nid u inp).isOk = true := by
  refine ⟨?_, ?_, ?_⟩
  · have hge : countOpenDocuments stA uA ≥ MAX_OPEN_DOCUMENTS := by
      simpa [MAX_OPEN_DOCUMENTS] using hA
    simp [createDecision, hge, MAX_OPEN_DOCUMENTS]
    intro h
    exact absurd hA (by omega)
  · have hbs : (d.status == DecisionStatus.signed) = false := by rw [hds]; rfl
    simp [softDeleteDecision, hd, hbs]
  · have hpd : openPred u (did, d) = true := by simp [openPred, hcb, hds, hdel]
    have hlt : countOpenDocuments (softDeletedStore now st did u) u < 4 := by
      have := count_setById_markDeleted_lt st.decisions did u now u d hd hpd
      have hc : countOpenDocuments (softDeletedStore now st did u) u <
          countOpenDocuments st u := this
      omega
    have hnot : ¬ (countOpenDocuments (softDeletedStore now st did u) u ≥
        MAX_OPEN_DOCUMENTS) := by
      simp only [MAX_OPEN_DOCUMENTS]
      omega
    have htib : (inp.title == "") = false := beq_eq_false_iff_ne.mpr hti
    unfold createDecision
    rw [if_neg hnot]
    rw [if_neg (by simp [htib])]
    cases hty : (inp.type == DecisionType.note_decision) with
    | true =>
      have hrq : inp.requestId ≠ none := hreq (beq_iff_eq.mp hty)
      have hrqb : (inp.requestId == none) = false := beq_eq_false_iff_ne.mpr hrq
      rw [if_neg (by simp [hty, hrqb])]
      cases hb2 : (inp.type == DecisionType.final_decision) <;>
        cases inp.discussionSessionId <;> simp [Except.isOk, Except.toBool]
    | false =>
      rw [if_neg (by simp [hty])]
      cases hb2 : (inp.type == DecisionType.final_decision) <;>
        cases inp.discussionSessionId <;> simp [Except.isOk, Except.toBool]

/-- Concrete store for C8: user 7 has exactly 4 non-deleted draft decisions;
request 30 belongs to case 5. -/
def c8draft : Decision :=
  { caseId := 5, type := .note_decision, title := "d", status := .draft, createdBy := 7 }

def c8store : Store := {
  cases := [(5, "open")],
  requests := [(30, { caseId := 5 })],
  decisions := [(1, c8draft), (2, c8draft), (3, c8draft), (4, c8draft)]
}

def c8dinp : CreateDecisionInput :=
  { caseId := 5, type := .discussion_decision, title := "x" }

/-- C8 counterexample: with 4 open drafts the limited endpoint blocks, yet
the create-decision-from-request endpoint — which skips the limiter —
creates a 5th draft for the same user, refuting "every new-draft decision
creation by that user is blocked". -/
theorem C8_counterexample :
    countOpenDocuments c8store 7 = 4 ∧
    createDecision 0 c8store 40 7 c8dinp = .error (.openDocumentsLimitExceeded 4 4) ∧
    ((createDecisionFromRequest c8store 30 40 7 { title := "t", content := "c" }).map
        fun b => countOpenDocuments b 7) = .ok 5 :=
  ⟨rfl, rfl, rfl⟩

/-- Witness for C8 (amended) at the concrete 4-draft store. -/
theorem C8_witness :
    countOpenDocuments c8store 7 ≥ 4 ∧
    lookup c8store.decisions 1 = some c8draft ∧
    c8draft.createdBy = 7 ∧ c8draft.status = .draft ∧ c8draft.isDeleted = false ∧
    countOpenDocuments c8store 7 = 4 ∧
    c8dinp.title ≠ "" ∧
    (c8dinp.type = .note_decision → c8dinp.requestId ≠ none) ∧
    (createDecision 0 c8store 40 7 c8dinp =
       .error (.openDocumentsLimitExceeded (countOpenDocuments c8store 7) 4) ∧
     softDeleteDecision 2 c8store 1 7 = .ok (softDeletedStore 2 c8store 1 7) ∧
     (createDecision 3 (softDeletedStore 2 c8store 1 7) 41 7 c8dinp).isOk = true) :=
  ⟨by decide, rfl, rfl, rfl, rfl, rfl, by decide, by decide,
    C8_amended c8store 7 40 0 c8dinp (by decide)
      c8store 7 1 2 41 3 c8draft c8dinp rfl rfl rfl rfl rfl (by decide) (by decide)⟩


/-! ## Protocol chain invariant (C2, C3) -/

/-- Version numbers of a session's protocol records in creation order. -/
def versionsOf (st : Store) (sid : Nat) : List Int :=
  (protocolsFor st sid).map (fun r => r.version)

/-- The append-only ledger shape: versions are 1..N in creation order and,
once non-empty, the current flags are false,…,false,true. -/
def chainShape (l : List ProtocolRec) : Prop :=
  l.map (fun r => r.version) = (List.range l.length).map (fun i : Nat => (i : Int) + 1) ∧
  (l = [] ∨ l.map (fun r => r.isCurrentVersion) =
    List.replicate (l.length - 1) false ++ [true])

theorem foldl_pickLatest_isSome (l : List ProtocolRec) (b : ProtocolRec) :
    ∃ c, l.foldl pickLatest (some b) = some c := by
  induction l generalizing b with
  | nil => exact ⟨b, rfl⟩
  | cons hd tl ih =>
    show ∃ c, tl.foldl pickLatest (pickLatest (some b) hd) = some c
    simp only [pickLatest]
    split
    · exact ih hd
    · exact ih b

theorem foldl_pickLatest_mem (l : List ProtocolRec) (b c : ProtocolRec)
    (h : l.foldl pickLatest (some b) = some c) : c = b ∨ c ∈ l := by
  induction l generalizing b with
  | nil =>
    injection h with h
    exact Or.inl h.symm
  | cons hd tl ih =>
    have h2 : tl.foldl pickLatest (pickLatest (some b) hd) = some c := h
    simp only [pickLatest] at h2
    split at h2
    · rcases ih hd h2 with h3 | h3
      · right; simp [h3]
      · right; simp [h3]
    · rcases ih b h2 with h3 | h3
      · left; exact h3
      · right; simp [h3]

theorem foldl_pickLatest_ub (l : List ProtocolRec) (b c : ProtocolRec)
    (h : l.foldl pickLatest (some b) = some c) :
    b.version ≤ c.version ∧ ∀ x ∈ l, x.version ≤ c.version := by
  induction l generalizing b with
  | nil =>
    injection h with h
    subst h
    exact ⟨le_refl _, by simp⟩
  | cons hd tl ih =>
    have h2 : tl.foldl pickLatest (pickLatest (some b) hd) = some c := h
    simp only [pickLatest] at h2
    split at h2
    · next hgt =>
      obtain ⟨h3, h4⟩ := ih hd h2
      refine ⟨le_of_lt (lt_of_lt_of_le hgt h3), ?_⟩
      intro x hx
      rcases List.mem_cons.mp hx with rfl | hx
      · exact h3
      · exact h4 x hx
    · next hgt =>
      obtain ⟨h3, h4⟩ := ih b h2
      refine ⟨h3, ?_⟩
      intro x hx
      rcases List.mem_cons.mp hx with rfl | hx
      · exact le_trans (le_of_not_lt (by simpa using hgt)) h3
      · exact h4 x hx
theorem chain_version_at (l : List ProtocolRec)
    (hv : l.map (fun r => r.version) = (List.range l.length).map (fun i : Nat => (i : Int) + 1))
    (i : Nat) (h : i < l.length) : (l[i]).version = (i : Int) + 1 := by
  have h1 := congrArg (fun xs => xs[i]?) hv
  simp only [List.getElem?_map] at h1
  rw [List.getElem?_eq_getElem h, List.getElem?_range h] at h1
  simpa using h1

theorem chain_flag_last (l : List ProtocolRec)
    (hf : l.map (fun r => r.isCurrentVersion) =
      List.replicate (l.length - 1) false ++ [true])
    (hlen : l.length - 1 < l.length) :
    (l[l.length - 1]).isCurrentVersion = true := by
  have h1 := congrArg (fun xs => xs[l.length - 1]?) hf
  simp only [List.getElem?_map] at h1
  rw [List.getElem?_eq_getElem hlen] at h1
  rw [List.getElem?_append_right (by simp)] at h1
  simp at h1
  exact h1

theorem chain_latest (l : List ProtocolRec) (hc : chainShape l) (hne : l ≠ []) :
    ∃ c, l.foldl pickLatest none = some c ∧ c.version = (l.length : Int) ∧
      c.isCurrentVersion = true := by
  obtain ⟨hv, hf⟩ := hc
  rcases hf with rfl | hf
  · exact absurd rfl hne
  cases l with
  | nil => exact absurd rfl hne
  | cons hd tl =>
    obtain ⟨c, hcfold⟩ := foldl_pickLatest_isSome tl hd
    have hfold : (hd :: tl).foldl pickLatest none = some c := by
      show tl.foldl pickLatest (pickLatest none hd) = some c
      simpa [pickLatest] using hcfold
    have hmem : c ∈ hd :: tl := by
      rcases foldl_pickLatest_mem tl hd c hcfold with h3 | h3
      · simp [h3]
      · simp [h3]
    have hub : ∀ x ∈ hd :: tl, x.version ≤ c.version := by
      obtain ⟨h3, h4⟩ := foldl_pickLatest_ub tl hd c hcfold
      intro x hx
      rcases List.mem_cons.mp hx with rfl | hx
      · exact h3
      · exact h4 x hx
    obtain ⟨i, hi, hic⟩ := List.getElem_of_mem hmem
    set L := hd :: tl with hL
    have hNpos : 0 < L.length := by simp [hL]
    have hlast : L.length - 1 < L.length := by omega
    have hverlast : (L[L.length - 1]).version = ((L.length - 1 : Nat) : Int) + 1 :=
      chain_version_at L hv _ hlast
    have hveri : (L[i]).version = (i : Int) + 1 := chain_version_at L hv i hi
    have hcv : c.version = (i : Int) + 1 := by rw [← hic]; exact hveri
    have hle1 : (L[L.length - 1]).version ≤ c.version :=
      hub _ (List.getElem_mem hlast)
    have hcast : ((L.length - 1 : Nat) : Int) + 1 = (L.length : Int) := by
      omega
    have hge : (L.length : Int) ≤ c.version := by
      rw [← hcast]
      rw [hverlast] at hle1
      exact hle1
    have hlt : c.version ≤ (L.length : Int) := by
      rw [hcv]
      have : i + 1 ≤ L.length := hi
      exact_mod_cast this
    have hcveq : c.version = (L.length : Int) := le_antisymm hlt hge
    have hieq : i = L.length - 1 := by
      have : (i : Int) + 1 = (L.length : Int) := by rw [← hcv, hcveq]
      omega
    subst hieq
    have hflag : c.isCurrentVersion = true := by
      have hfl := chain_flag_last L hf (by simp [hL])

      rw [← hic]
      exact hfl
    exact ⟨c, hfold, hcveq, hflag⟩

/-! ## C2 and C3 machinery -/

theorem demoteRec_sessionId (sid : Nat) (r : ProtocolRec) :
    (demoteRec sid r).discussionSessionId = r.discussionSessionId := by
  unfold demoteRec; split <;> rfl

theorem demoteRec_version (sid : Nat) (r : ProtocolRec) :
    (demoteRec sid r).version = r.version := by
  unfold demoteRec; split <;> rfl

theorem demoteRec_flag (sid : Nat) (r : ProtocolRec)
    (h : (r.discussionSessionId == sid) = true) :
    (demoteRec sid r).isCurrentVersion = false := by
  unfold demoteRec
  cases hc : r.isCurrentVersion with
  | true => simp [h, hc]
  | false => simp [h, hc]

theorem demoteRec_id (sid : Nat) (r : ProtocolRec)
    (h : (r.discussionSessionId == sid) = false) : demoteRec sid r = r := by
  unfold demoteRec
  simp [h]

theorem filter_map_demote (ps : List ProtocolRec) (sid : Nat) :
    (ps.map (demoteRec sid)).filter (fun r => r.discussionSessionId == sid) =
      (ps.filter (fun r => r.discussionSessionId == sid)).map (demoteRec sid) := by
  rw [List.filter_map]
  congr 1
  apply List.filter_congr
  intro x _
  simp [Function.comp, demoteRec_sessionId]

theorem filter_map_demote_ne (ps : List ProtocolRec) (sid sid2 : Nat) (hne : sid2 ≠ sid) :
    (ps.map (demoteRec sid)).filter (fun r => r.discussionSessionId == sid2) =
      ps.filter (fun r => r.discussionSessionId == sid2) := by
  rw [List.filter_map]
  have h1 : ps.filter ((fun r => r.discussionSessionId == sid2) ∘ demoteRec sid) =
      ps.filter (fun r => r.discussionSessionId == sid2) := by
    apply List.filter_congr
    intro x _
    simp [Function.comp, demoteRec_sessionId]
  rw [h1]
  have h2 : ∀ x ∈ ps.filter (fun r => r.discussionSessionId == sid2),
      demoteRec sid x = x := by
    intro x hx
    have hx2 : (x.discussionSessionId == sid2) = true := (List.mem_filter.mp hx).2
    apply demoteRec_id
    have : x.discussionSessionId = sid2 := beq_iff_eq.mp hx2
    simp [this, hne]
  calc (ps.filter (fun r => r.discussionSessionId == sid2)).map (demoteRec sid)
      = (ps.filter (fun r => r.discussionSessionId == sid2)).map id :=
        List.map_congr_left h2
    _ = _ := by simp

theorem appendVersion_protocolsFor_ne (st : Store) (sid sid2 caseId u : Nat) (cw : String)
    (v : Option Int) (hne : sid2 ≠ sid) :
    protocolsFor (appendVersion st sid caseId cw v u) sid2 = protocolsFor st sid2 := by
  have hnb : (sid == sid2) = false := by
    simp only [beq_eq_false_iff_ne]
    exact fun e => hne e.symm
  unfold appendVersion protocolsFor demoteCurrents
  cases hlat : latestProtocolFor st sid with
  | none =>
    simp only [hlat, List.filter_append]
    simp [hnb]
  | some lp =>
    cases hflag : lp.isCurrentVersion with
    | false =>
      simp only [hlat, hflag, List.filter_append]
      simp [hnb]
    | true =>
      simp only [hlat, hflag, List.filter_append, if_true]
      rw [filter_map_demote_ne st.protocols sid sid2 hne]
      simp [hnb]

theorem appendVersion_chainShape (st : Store) (sid caseId u : Nat) (cw : String)
    (hc : chainShape (protocolsFor st sid)) :
    chainShape (protocolsFor (appendVersion st sid caseId cw none u) sid) := by
  by_cases hne : protocolsFor st sid = []
  · have hlat : latestProtocolFor st sid = none := by
      unfold latestProtocolFor
      rw [hne]
      rfl
    have hres : (appendVersion st sid caseId cw none u).protocols =
        st.protocols ++
          [{ discussionSessionId := sid, caseId := caseId, content := cw,
             version := 1, isCurrentVersion := true, createdBy := u }] := by
      unfold appendVersion
      rw [hlat]
    have hfil : protocolsFor (appendVersion st sid caseId cw none u) sid =
        [{ discussionSessionId := sid, caseId := caseId, content := cw,
           version := 1, isCurrentVersion := true, createdBy := u }] := by
      unfold protocolsFor
      rw [hres, List.filter_append]
      unfold protocolsFor at hne
      rw [hne]
      simp
    rw [hfil]
    constructor
    · simp [List.range_succ]
    · right
      simp
  · obtain ⟨c, hfold, hcv, hcflag⟩ := chain_latest _ hc hne
    have hlat : latestProtocolFor st sid = some c := hfold
    have hres : (appendVersion st sid caseId cw none u).protocols =
        st.protocols.map (demoteRec sid) ++
          [{ discussionSessionId := sid, caseId := caseId, content := cw,
             version := c.version + 1, isCurrentVersion := true, createdBy := u }] := by
      unfold appendVersion demoteCurrents
      rw [hlat]
      simp [hcflag]
    have hfil : protocolsFor (appendVersion st sid caseId cw none u) sid =
        (protocolsFor st sid).map (demoteRec sid) ++
          [{ discussionSessionId := sid, caseId := caseId, content := cw,
             version := c.version + 1, isCurrentVersion := true, createdBy := u }] := by
      unfold protocolsFor
      rw [hres, List.filter_append, filter_map_demote]
      congr 1
      simp
    rw [hfil]
    obtain ⟨hv, hf⟩ := hc
    constructor
    · rw [List.map_append, List.map_map]
      have h1 : (protocolsFor st sid).map ((fun r => r.version) ∘ demoteRec sid) =
          (protocolsFor st sid).map (fun r => r.version) :=
        List.map_congr_left (fun x _ => demoteRec_version sid x)
      rw [h1, hv]
      have hlen : ((protocolsFor st sid).map (demoteRec sid) ++
          ([{ discussionSessionId := sid, caseId := caseId, content := cw,
              version := c.version + 1, isCurrentVersion := true, createdBy := u }] :
            List ProtocolRec)).length =
          (protocolsFor st sid).length + 1 := by simp
      rw [hlen, List.range_succ, List.map_append]
      simp [hcv]
    · right
      rw [List.map_append, List.map_map]
      have h2 : (protocolsFor st sid).map ((fun r => r.isCurrentVersion) ∘ demoteRec sid) =
          List.replicate (protocolsFor st sid).length false := by
        rw [List.eq_replicate_iff]
        constructor
        · simp
        · intro b hb
          obtain ⟨x, hx, hbx⟩ := List.mem_map.mp hb
          have hxs : (x.discussionSessionId == sid) = true := (List.mem_filter.mp hx).2
          rw [← hbx]
          simp [Function.comp, demoteRec_flag sid x hxs]
      rw [h2]
      have hlen : ((protocolsFor st sid).map (demoteRec sid) ++
          ([{ discussionSessionId := sid, caseId := caseId, content := cw,
              version := c.version + 1, isCurrentVersion := true, createdBy := u }] :
            List ProtocolRec)).length =
          (protocolsFor st sid).length + 1 := by simp
      rw [hlen]
      simp

theorem length_filter_eq_count_true (l : List ProtocolRec) :
    (l.filter (fun r => r.isCurrentVersion)).length =
      (l.map (fun r => r.isCurrentVersion)).count true := by
  induction l with
  | nil => rfl
  | cons hd tl ih =>
    cases hp : hd.isCurrentVersion <;>
      simp [List.filter_cons, List.count_cons, hp, ih]

theorem saveProtocolVersion_ok_protocols (today now : Nat) (st : Store) (sid : Nat)
    (content : String) (u : Nat) (st2 : Store)
    (h : saveProtocolVersion today now st sid content u = .ok st2) :
    ∃ s cw, lookup st.sessions sid = some s ∧
      st2.protocols = (appendVersion st sid s.caseId cw none u).protocols := by
  unfold saveProtocolVersion at h
  split at h
  · simp at h
  · split at h
    · simp at h
    · next s hs =>
      split at h
      · simp at h
      · (try simp only [] at h)
        split at h
        · simp at h
        · split at h
          · simp at h
          · split at h
            · simp at h
            · next st3 hsv =>
              refine ⟨s, injectParticipantsHeader content s.attendees, hs, ?_⟩
              have h2 : st3 = st2 := by injection h
              subst h2
              unfold saveSession at hsv
              split at hsv
              · simp at hsv
              · next s2 hhook =>
                have h3 := hsv
                injection h3 with h3
                rw [← h3]

/-- One successful save-protocol-version request anywhere in the store. -/
inductive SaveStep : Store → Store → Prop
  | step (today now sid u : Nat) (content : String) {st st2 : Store}
      (h : saveProtocolVersion today now st sid content u = .ok st2) : SaveStep st st2

theorem saveStep_chainShape {st st2 : Store} (h : SaveStep st st2) (sid : Nat)
    (hc : chainShape (protocolsFor st sid)) : chainShape (protocolsFor st2 sid) := by
  rcases h with ⟨today, now, sid0, u, content, h⟩
  obtain ⟨s, cw, hs, hp⟩ := saveProtocolVersion_ok_protocols today now st sid0 content u st2 h
  have hpf : protocolsFor st2 sid =
      protocolsFor (appendVersion st sid0 s.caseId cw none u) sid := by
    unfold protocolsFor
    rw [hp]
  by_cases he : sid = sid0
  · subst he
    rw [hpf]
    exact appendVersion_chainShape st sid s.caseId u cw hc
  · rw [hpf, appendVersion_protocolsFor_ne st sid0 sid s.caseId u cw none he]
    exact hc

theorem saveReach_chainShape {st st2 : Store}
    (h : Relation.ReflTransGen SaveStep st st2) (sid : Nat)
    (hc : chainShape (protocolsFor st sid)) : chainShape (protocolsFor st2 sid) := by
  induction h with
  | refl => exact hc
  | tail _ h2 ih => exact saveStep_chainShape h2 sid ih

/-! ## C2 and C3 counterexample data -/

/-- Active session with one attendee whose hearing id resolves to no hearing
(so the date gate is skipped). -/
def c2session : Session :=
  { hearingId := 99, caseId := 5, title := "t", startedAt := 3,
    attendees := [{ type := .witness, name := "a" }], status := .active }

def c2store : Store := {
  cases := [(5, "open")],
  sessions := [(10, c2session)]
}

/-- C2 counterexample: the create-protocol route takes a caller-supplied
`version` verbatim, so the first stored version of a session can be 5 —
the version set is then {5}, not {1..N}. -/
theorem C2_counterexample :
    ((createProtocol 0 0 c2store 10 5 "x" (some 5) 7).map fun b => versionsOf b 10)
      = .ok [(5 : Int)] ∧
    ((createProtocol 0 0 c2store 10 5 "x" (some 5) 7).map fun b => versionsOf b 10)
      ≠ .ok [(1 : Int)] :=
  ⟨rfl, by
    intro hx
    rw [show ((createProtocol 0 0 c2store 10 5 "x" (some 5) 7).map fun b => versionsOf b 10)
        = .ok [(5 : Int)] from rfl] at hx
    simp at hx⟩

/-- C2 (amended): under every sequence of successful `saveProtocolVersion`
operations, each session's version numbers remain exactly 1..N in creation
order (no gaps, no duplicates, creation order equals numeric order), for any
starting store whose ledger has that shape; the create-protocol route's
caller-supplied `version` can break the invariant. -/
theorem C2_amended (st st2 : Store)
    (h : Relation.ReflTransGen SaveStep st st2) (sid : Nat)
    (hc : chainShape (protocolsFor st sid)) :
    versionsOf st2 sid =
      (List.range (protocolsFor st2 sid).length).map (fun i : Nat => (i : Int) + 1) :=
  (saveReach_chainShape h sid hc).1

def c2step1 : Store := (saveProtocolVersion 4 0 c2store 10 "x" 7).toOption.getD c2store

theorem C2_witness :
    chainShape (protocolsFor c2store 10) ∧
    versionsOf c2step1 10 =
      (List.range (protocolsFor c2step1 10).length).map (fun i : Nat => (i : Int) + 1) :=
  ⟨by constructor <;> decide,
    C2_amended c2store c2step1
      (Relation.ReflTransGen.single (SaveStep.step 4 0 10 7 "x" rfl)) 10
      (by constructor <;> decide)⟩

set_option maxRecDepth 100000 in
/-- C3 counterexample: creating version 5, then version 3 (demoting 5),
then saving — the save finds the highest-version record (5) non-current,
skips the demotion, and inserts a new current version, leaving TWO records
with `isCurrentVersion = true` for the session. -/
theorem C3_counterexample :
    ((((createProtocol 0 0 c2store 10 5 "x" (some 5) 7).bind
          fun a => createProtocol 0 0 a 10 5 "y" (some 3) 7).bind
        fun b => saveProtocolVersion 0 0 b 10 "z" 7).map
      fun c2 => ((protocolsFor c2 10).filter (fun r => r.isCurrentVersion)).length)
      = .ok 2 := rfl

/-- C3 (amended): under every sequence of successful `saveProtocolVersion`
operations from a store whose ledger has the chain shape, each session has
0 current versions when it has no versions and exactly 1 once it has any;
reachable states that mix in create-protocol requests with caller-supplied
versions can hold two current versions. -/
theorem C3_amended (st st2 : Store)
    (h : Relation.ReflTransGen SaveStep st st2) (sid : Nat)
    (hc : chainShape (protocolsFor st sid)) :
    ((protocolsFor st2 sid).filter (fun r => r.isCurrentVersion)).length =
      if protocolsFor st2 sid = [] then 0 else 1 := by
  obtain ⟨hv, hf⟩ := saveReach_chainShape h sid hc
  rcases hf with hnil | hf
  · rw [hnil]
    simp
  · have hne : protocolsFor st2 sid ≠ [] := by
      intro hnil2
      rw [hnil2] at hf
      simp at hf
    rw [if_neg hne, length_filter_eq_count_true, hf]
    simp [List.count_append, List.count_replicate]

theorem C3_witness :
    chainShape (protocolsFor c2store 10) ∧
    (((protocolsFor c2step1 10).filter (fun r => r.isCurrentVersion)).length =
      if protocolsFor c2step1 10 = [] then 0 else 1) :=
  ⟨by constructor <;> decide,
    C3_amended c2store c2step1
      (Relation.ReflTransGen.single (SaveStep.step 4 0 10 7 "x" rfl)) 10
      (by constructor <;> decide)⟩

end Arby






